import Mathlib

/-!
Verification development for the Telegram session-credential tool
(`session_manager.py`, `session_creator.py`, `standalone_session_tool.py`).

The session store is modelled at the parsed-JSON level: a store is the list
of files in the sessions directory in iteration (glob) order, each file being
a filename together with either a parsed session record or an unreadable
blob (a file whose open/JSON-parse raises).  JSON `null` and an absent key
are both modelled as `Option.none`; no claim distinguishes them.  Wall-clock
timestamps are passed in as opaque strings (`isoformat` and the compact
`strftime` rendering used for fallback filenames).  File-size display
metadata and the on-disk byte layout are below the level of this model.

String operations are implemented over `String.data` character lists so that
the kernel can evaluate them on concrete inputs; `Char.isAlphanum` stands in
for Python's `str.isalnum` and `Char.isWhitespace` for the class stripped by
`str.strip` (the distinction only matters for non-ASCII input, which no
claim exercises).
-/

namespace Veronica

/-- Python `s.endswith(suffix)`. -/
def pyEndsWith (s suffix : String) : Bool :=
  suffix.data.isSuffixOf s.data

/-- Python `s.strip()`: drop leading and trailing whitespace. -/
def pyStrip (s : String) : String :=
  String.mk (((s.data.dropWhile Char.isWhitespace).reverse.dropWhile
    Char.isWhitespace).reverse)

/-- The characters retained by the filename slug in `save_session`:
`c.isalnum() or c in (' ', '-', '_')`. -/
def isAllowedChar (c : Char) : Bool :=
  c.isAlphanum || c = ' ' || c = '-' || c = '_'

/-- One parsed session record (`session_data` dict). Field order follows the
dict literal in `save_session`. -/
structure SessionData where
  name : Option String
  session_string : Option String
  phone : Option String
  notes : Option String
  created_at : Option String
  last_used : Option String
deriving Repr, DecidableEq

/-- Contents of one file in the sessions directory: either a JSON document
that parses to a record, or a file whose read/parse raises. -/
inductive FileContent where
  | record (d : SessionData)
  | unreadable
deriving Repr, DecidableEq

/-- One file of the store: filename plus contents. -/
structure SFile where
  fname : String
  content : FileContent
deriving Repr, DecidableEq

/-- First file with the given name, if any (filesystem names are unique; the
model consistently uses first-occurrence semantics). -/
def lookupFile : List SFile → String → Option FileContent
  | [], _ => none
  | f :: fs, fn => if f.fname = fn then some f.content else lookupFile fs fn

/-- `(sessions_dir / fn).exists()`. -/
def fileExists : List SFile → String → Bool
  | [], _ => false
  | f :: fs, fn => f.fname == fn || fileExists fs fn

/-- `open(filepath, 'w')` + `json.dump`: replace the contents of `fn` if it
exists, otherwise create it. -/
def writeFile : List SFile → String → FileContent → List SFile
  | [], fn, c => [⟨fn, c⟩]
  | f :: fs, fn, c =>
    if f.fname = fn then ⟨fn, c⟩ :: fs else f :: writeFile fs fn c

/-- The `safe_name` computation of `save_session`:
`"".join(c for c in name if c.isalnum() or c in (' ', '-', '_')).strip()`. -/
def safeNameOf (name : String) : String :=
  pyStrip (String.mk (name.data.filter isAllowedChar))

/-- Modelled from the spec: the slug that "retains exactly the alphanumeric
characters, spaces, hyphens and underscores of `name` and strips every other
character" — a pure character filter, with no trimming step.  Kept for
comparison against the code's `safeNameOf`. -/
def specSlug (name : String) : String :=
  String.mk (name.data.filter isAllowedChar)

/-- The filename `save_session` writes to: the safe name, or the
timestamp-derived fallback when it is empty, plus the `.json` suffix. -/
def saveFilename (name nowCompact : String) : String :=
  (if safeNameOf name = "" then "session_" ++ nowCompact else safeNameOf name)
    ++ ".json"

/-- `SessionManager.save_session`: build the record (fresh `created_at`,
null `last_used`), write it under the derived filename (overwriting any
existing file), return success. `nowIso` is `datetime.now().isoformat()`,
`nowCompact` is `datetime.now().strftime('%Y%m%d_%H%M%S')`. -/
def save_session (store : List SFile) (nowIso nowCompact : String)
    (session_string name : String) (phone notes : Option String) :
    Bool × List SFile :=
  let session_data : SessionData :=
    { name := some name
      session_string := some session_string
      phone := phone
      notes := notes
      created_at := some nowIso
      last_used := none }
  (true, writeFile store (saveFilename name nowCompact) (.record session_data))

/-- The scan predicate of `_find_session_file`: a `*.json` file whose parsed
`name` field equals the identifier (unreadable files are skipped by the
`except: continue`). -/
def matchesName (f : SFile) (name : String) : Bool :=
  pyEndsWith f.fname ".json" &&
    match f.content with
    | .record d => d.name == some name
    | .unreadable => false

/-- The fallback scan of `_find_session_file`: first `*.json` record file
whose `name` field equals the identifier. -/
def scanForName : List SFile → String → Option String
  | [], _ => none
  | f :: fs, name =>
    if matchesName f name then some f.fname else scanForName fs name

/-- `SessionManager._find_session_file`: (a) exact filename if the
identifier ends in `.json` and exists; (b) identifier + `.json` if that
exists; (c) first record whose `name` field matches; (d) not found. -/
def findSessionFile (store : List SFile) (name : String) : Option String :=
  if pyEndsWith name ".json" && fileExists store name then
    some name
  else if fileExists store (name ++ ".json") then
    some (name ++ ".json")
  else
    scanForName store name

/-- `SessionManager.load_session`: resolve the identifier, read the file,
stamp `last_used` to now and rewrite the file, then extract
`session_data["session_string"]` (and display `session_data['name']`).  A
missing `session_string` or `name` key raises `KeyError` only after the
rewrite, so the failure result leaves the restamped file behind; an
unreadable file raises at parse time, before any write. -/
def load_session (store : List SFile) (now name : String) :
    Option String × List SFile :=
  match findSessionFile store name with
  | none => (none, store)
  | some filename =>
    match lookupFile store filename with
    | some (.record d) =>
      let store' := writeFile store filename (.record { d with last_used := some now })
      match d.session_string, d.name with
      | some s, some _ => (some s, store')
      | _, _ => (none, store')
    | _ => (none, store)

/-- One entry of the `list_sessions` result: the parsed record plus the
derived filename display metadata (file size is display-only and not
modelled). -/
structure ListedSession where
  data : SessionData
  filename : String
deriving Repr, DecidableEq

/-- Reading one file during `list_sessions`' glob loop: only `*.json` files
are visited, and an unreadable one is logged and skipped. -/
def readListed (f : SFile) : Option ListedSession :=
  if pyEndsWith f.fname ".json" then
    match f.content with
    | .record d => some ⟨d, f.fname⟩
    | .unreadable => none
  else none

/-- The sort key of `list_sessions`: `x.get("created_at", "")`, as a
character list so the lexicographic order is computable. -/
def sessionSortKey (s : ListedSession) : List Char :=
  (s.data.created_at.getD "").data

/-- `SessionManager.list_sessions`: read every `*.json` file, skipping
unreadable ones, then `sessions.sort(key=..., reverse=True)` — a stable
descending sort on the `created_at` key. -/
def list_sessions (store : List SFile) : List ListedSession :=
  (store.filterMap readListed).mergeSort
    (fun a b => decide (sessionSortKey b ≤ sessionSortKey a))

/-- `SessionManager.delete_session`: resolve the identifier and unlink the
file; `False` when the identifier does not resolve. -/
def delete_session (store : List SFile) (name : String) : Bool × List SFile :=
  match findSessionFile store name with
  | none => (false, store)
  | some filename =>
    (true, store.filter (fun f => f.fname ≠ filename))

/-- Errors the remote client library can raise during the handshake. -/
inductive TgError where
  | phoneCodeInvalid
  | apiIdInvalid
  | other
deriving Repr, DecidableEq

/-- Outcome of `client.sign_in(phone, code)`. -/
inductive SignInResult where
  | ok
  | passwordNeeded
  | err (e : TgError)
deriving Repr, DecidableEq

/-- One `input()` prompt: the operator either types text or interrupts
(`KeyboardInterrupt`, which is not caught by `except Exception`). -/
inductive OperatorInput where
  | text (s : String)
  | interrupt
deriving Repr, DecidableEq

/-- A scripted remote stub plus operator inputs: the outcome of each step of
the handshake (`none` = the awaited call succeeds). -/
structure RemoteScript where
  connect : Option TgError
  sendCode : Option TgError
  codeInput : OperatorInput
  signInCode : SignInResult
  passwordInput : OperatorInput
  signInPassword : Option TgError
  isAuthErr : Option TgError
  authorized : Bool
  getMe : Option TgError
  exported : String
deriving Repr, DecidableEq

/-- `SessionCreator.create_session` run against a scripted remote.  Returns
the flow result (`Except.error` = an uncaught `KeyboardInterrupt`
propagating; `Except.ok none` = a caught error converted to `None`;
`Except.ok (some tok)` = success) paired with the number of times
`client.disconnect()` ran.  The client is constructed before any awaited
call, so the `finally` block governs every path below. -/
def create_session_run (r : RemoteScript) : Except Unit (Option String) × Nat :=
  match r.connect with
  | some _ => (Except.ok none, 1)
  | none =>
    match r.sendCode with
    | some _ => (Except.ok none, 1)
    | none =>
      match r.codeInput with
      | OperatorInput.interrupt => (Except.error (), 1)
      | OperatorInput.text _ =>
        match r.signInCode with
        | SignInResult.err _ => (Except.ok none, 1)
        | SignInResult.ok =>
          match r.getMe with
          | some _ => (Except.ok none, 1)
          | none => (Except.ok (some r.exported), 1)
        | SignInResult.passwordNeeded =>
          match r.passwordInput with
          | OperatorInput.interrupt => (Except.error (), 1)
          | OperatorInput.text _ =>
            match r.signInPassword with
            | some _ => (Except.ok none, 1)
            | none =>
              match r.getMe with
              | some _ => (Except.ok none, 1)
              | none => (Except.ok (some r.exported), 1)

/-- `SessionCreator.test_session` run against a scripted remote: connect,
check `is_user_authorized`, fetch identity for display; every raised error
is converted to `False`, and `finally` disconnects on every path. -/
def test_session_run (r : RemoteScript) : Except Unit Bool × Nat :=
  match r.connect with
  | some _ => (Except.ok false, 1)
  | none =>
    match r.isAuthErr with
    | some _ => (Except.ok false, 1)
    | none =>
      if r.authorized then
        match r.getMe with
        | some _ => (Except.ok false, 1)
        | none => (Except.ok true, 1)
      else
        (Except.ok false, 1)

/-! Helper lemmas about the file-store primitives. -/

theorem lookupFile_writeFile_self (store : List SFile) (fn : String)
    (c : FileContent) : lookupFile (writeFile store fn c) fn = some c := by
  induction store with
  | nil => simp [writeFile, lookupFile]
  | cons f fs ih =>
    by_cases h : f.fname = fn
    · simp [writeFile, h, lookupFile]
    · simp [writeFile, h, lookupFile, ih]

theorem lookupFile_writeFile_other (store : List SFile) (fn g : String)
    (c : FileContent) (h : g ≠ fn) :
    lookupFile (writeFile store fn c) g = lookupFile store g := by
  induction store with
  | nil => simp [writeFile, lookupFile, Ne.symm h]
  | cons f fs ih =>
    by_cases hf : f.fname = fn
    · simp [writeFile, lookupFile, hf, Ne.symm h]
    · simp [writeFile, hf, lookupFile, ih]

theorem fileExists_writeFile_self (store : List SFile) (fn : String)
    (c : FileContent) : fileExists (writeFile store fn c) fn = true := by
  induction store with
  | nil => simp [writeFile, fileExists]
  | cons f fs ih =>
    by_cases h : f.fname = fn
    · simp [writeFile, h, fileExists]
    · simp [writeFile, h, fileExists, ih]

theorem length_writeFile_of_exists (store : List SFile) (fn : String)
    (c : FileContent) (h : fileExists store fn = true) :
    (writeFile store fn c).length = store.length := by
  induction store with
  | nil => simp [fileExists] at h
  | cons f fs ih =>
    by_cases hf : f.fname = fn
    · simp [writeFile, hf]
    · have hfs : fileExists fs fn = true := by
        simpa [fileExists, hf] using h
      simp [writeFile, hf, ih hfs]

theorem load_session_of_find_none (store : List SFile) (t n : String)
    (h : findSessionFile store n = none) :
    load_session store t n = (none, store) := by
  simp [load_session, h]

theorem scanForName_of_all_miss (store : List SFile) (n : String)
    (h : ∀ f ∈ store, matchesName f n = false) :
    scanForName store n = none := by
  induction store with
  | nil => rfl
  | cons f fs ih =>
    have hf := h f (List.mem_cons_self f fs)
    simp [scanForName, hf, ih fun g hg => h g (List.mem_cons_of_mem f hg)]

theorem scanForName_first (pre : List SFile) (f : SFile) (post : List SFile)
    (n : String) (hpre : ∀ g ∈ pre, matchesName g n = false)
    (hf : matchesName f n = true) :
    scanForName (pre ++ f :: post) n = some f.fname := by
  induction pre with
  | nil => simp [scanForName, hf]
  | cons g gs ih =>
    have hg := hpre g (List.mem_cons_self g gs)
    simp [scanForName, hg,
      ih fun g' hg' => hpre g' (List.mem_cons_of_mem g hg')]

/-! Claim theorems. -/

/-- C1: for every valid record saved into a store where the name resolves
back to the saved file, `save_session` then `load_session name` returns
exactly the saved token; the saved record has a null `last_used` (its prior
value), and after the load `last_used` is stamped to the load time, hence
non-null. -/
theorem c1_save_then_load_roundtrip (store : List SFile)
    (nowIso nowCompact tok name t : String) (phone notes : Option String)
    (hres : findSessionFile
        (save_session store nowIso nowCompact tok name phone notes).2 name
      = some (saveFilename name nowCompact)) :
    lookupFile (save_session store nowIso nowCompact tok name phone notes).2
        (saveFilename name nowCompact)
      = some (.record ⟨some name, some tok, phone, notes, some nowIso, none⟩)
    ∧ (load_session
        (save_session store nowIso nowCompact tok name phone notes).2 t name).1
      = some tok
    ∧ lookupFile
        (load_session
          (save_session store nowIso nowCompact tok name phone notes).2 t name).2
        (saveFilename name nowCompact)
      = some (.record ⟨some name, some tok, phone, notes, some nowIso, some t⟩) := by
  have h1 : lookupFile (save_session store nowIso nowCompact tok name phone notes).2
      (saveFilename name nowCompact)
      = some (.record ⟨some name, some tok, phone, notes, some nowIso, none⟩) :=
    lookupFile_writeFile_self store (saveFilename name nowCompact) _
  have h2 : load_session
      (save_session store nowIso nowCompact tok name phone notes).2 t name
      = (some tok,
        writeFile (save_session store nowIso nowCompact tok name phone notes).2
          (saveFilename name nowCompact)
          (.record ⟨some name, some tok, phone, notes, some nowIso, some t⟩)) := by
    simp [load_session, hres, h1]
  exact ⟨h1, by rw [h2], by rw [h2]; exact lookupFile_writeFile_self _ _ _⟩

/-- C1 witness: a concrete save-then-load round trip on an empty store. -/
theorem c1_witness :
    (findSessionFile
        (save_session [] "2024-01-01T00:00:00" "20240101_000000" "TOK" "alice"
          none none).2 "alice"
      = some (saveFilename "alice" "20240101_000000"))
    ∧ (lookupFile
          (save_session [] "2024-01-01T00:00:00" "20240101_000000" "TOK" "alice"
            none none).2 (saveFilename "alice" "20240101_000000")
        = some (.record ⟨some "alice", some "TOK", none, none,
            some "2024-01-01T00:00:00", none⟩)
      ∧ (load_session
            (save_session [] "2024-01-01T00:00:00" "20240101_000000" "TOK" "alice"
              none none).2 "2024-01-02T00:00:00" "alice").1
        = some "TOK"
      ∧ lookupFile
          (load_session
            (save_session [] "2024-01-01T00:00:00" "20240101_000000" "TOK" "alice"
              none none).2 "2024-01-02T00:00:00" "alice").2
          (saveFilename "alice" "20240101_000000")
        = some (.record ⟨some "alice", some "TOK", none, none,
            some "2024-01-01T00:00:00", some "2024-01-02T00:00:00"⟩)) :=
  ⟨by decide,
    c1_save_then_load_roundtrip [] "2024-01-01T00:00:00" "20240101_000000" "TOK"
      "alice" "2024-01-02T00:00:00" none none (by decide)⟩

/-- C6: a successful load changes only the `last_used` field of the resolved
record — `name`, `session_string` (the token), `phone`, `notes` and
`created_at` are carried over unchanged — and leaves every other file of the
store untouched. -/
theorem c6_load_rewrites_only_last_used (store : List SFile)
    (t name s : String) (st' : List SFile)
    (h : load_session store t name = (some s, st')) :
    ∃ fn d, findSessionFile store name = some fn
      ∧ lookupFile store fn = some (.record d)
      ∧ d.session_string = some s
      ∧ st' = writeFile store fn (.record { d with last_used := some t })
      ∧ lookupFile st' fn = some (.record { d with last_used := some t })
      ∧ ∀ g, g ≠ fn → lookupFile st' g = lookupFile store g := by
  cases hfind : findSessionFile store name with
  | none =>
    rw [load_session_of_find_none store t name hfind] at h
    exact absurd (congrArg Prod.fst h) (by simp)
  | some fn =>
    cases hlk : lookupFile store fn with
    | none =>
      have hload : load_session store t name = (none, store) := by
        simp [load_session, hfind, hlk]
      rw [hload] at h
      exact absurd (congrArg Prod.fst h) (by simp)
    | some c =>
      cases c with
      | unreadable =>
        have hload : load_session store t name = (none, store) := by
          simp [load_session, hfind, hlk]
        rw [hload] at h
        exact absurd (congrArg Prod.fst h) (by simp)
      | record d =>
        cases hss : d.session_string with
        | none =>
          have hload : (load_session store t name).1 = none := by
            cases hn : d.name <;> simp [load_session, hfind, hlk, hss, hn]
          rw [h] at hload
          exact absurd hload (by simp)
        | some s0 =>
          cases hn : d.name with
          | none =>
            have hload : (load_session store t name).1 = none := by
              simp [load_session, hfind, hlk, hss, hn]
            rw [h] at hload
            exact absurd hload (by simp)
          | some nm =>
            have hload : load_session store t name
                = (some s0,
                  writeFile store fn (.record { d with last_used := some t })) := by
              simp [load_session, hfind, hlk, hss, hn]
            rw [hload] at h
            injection h with h1 h2
            injection h1 with h1
            subst h1
            subst h2
            exact ⟨fn, d, rfl, hlk, hss, rfl,
              lookupFile_writeFile_self _ _ _,
              fun g hg => lookupFile_writeFile_other _ _ _ _ hg⟩

/-- C6 witness: a concrete successful load restamps `last_used` and keeps
every other field of the record. -/
theorem c6_witness :
    (load_session
        [⟨"bob.json", .record ⟨some "bob", some "Tok", none, none,
          some "2024-01-01T00:00:00", none⟩⟩] "2024-05-05T12:00:00" "bob"
      = (some "Tok",
        [⟨"bob.json", .record ⟨some "bob", some "Tok", none, none,
          some "2024-01-01T00:00:00", some "2024-05-05T12:00:00"⟩⟩]))
    ∧ ∃ fn d,
        findSessionFile
          [⟨"bob.json", .record ⟨some "bob", some "Tok", none, none,
            some "2024-01-01T00:00:00", none⟩⟩] "bob" = some fn
        ∧ lookupFile
            [⟨"bob.json", .record ⟨some "bob", some "Tok", none, none,
              some "2024-01-01T00:00:00", none⟩⟩] fn = some (.record d)
        ∧ d.session_string = some "Tok"
        ∧ [⟨"bob.json", .record ⟨some "bob", some "Tok", none, none,
              some "2024-01-01T00:00:00", some "2024-05-05T12:00:00"⟩⟩]
          = writeFile
              [⟨"bob.json", .record ⟨some "bob", some "Tok", none, none,
                some "2024-01-01T00:00:00", none⟩⟩] fn
              (.record { d with last_used := some "2024-05-05T12:00:00" })
        ∧ lookupFile
            [⟨"bob.json", .record ⟨some "bob", some "Tok", none, none,
              some "2024-01-01T00:00:00", some "2024-05-05T12:00:00"⟩⟩] fn
          = some (.record { d with last_used := some "2024-05-05T12:00:00" })
        ∧ ∀ g, g ≠ fn →
            lookupFile
              [⟨"bob.json", .record ⟨some "bob", some "Tok", none, none,
                some "2024-01-01T00:00:00", some "2024-05-05T12:00:00"⟩⟩] g
            = lookupFile
                [⟨"bob.json", .record ⟨some "bob", some "Tok", none, none,
                  some "2024-01-01T00:00:00", none⟩⟩] g :=
  ⟨by decide, c6_load_rewrites_only_last_used _ _ _ _ _ (by decide)⟩

/-- C8: `save_session` succeeds, writing the record fields plus the fresh
`created_at` and a null `last_used` under the derived filename; it silently
overwrites an existing file of that name (the new content wins, the previous
`created_at`/`last_used` are not preserved, and no extra file is created),
and leaves every other file unchanged. -/
theorem c8_save_overwrites_silently (store : List SFile)
    (nowIso nowCompact tok name : String) (phone notes : Option String) :
    (save_session store nowIso nowCompact tok name phone notes).1 = true
    ∧ lookupFile (save_session store nowIso nowCompact tok name phone notes).2
        (saveFilename name nowCompact)
      = some (.record ⟨some name, some tok, phone, notes, some nowIso, none⟩)
    ∧ (∀ g, g ≠ saveFilename name nowCompact →
        lookupFile (save_session store nowIso nowCompact tok name phone notes).2 g
          = lookupFile store g)
    ∧ (fileExists store (saveFilename name nowCompact) = true →
        (save_session store nowIso nowCompact tok name phone notes).2.length
          = store.length) :=
  ⟨rfl, lookupFile_writeFile_self _ _ _,
    fun _ hg => lookupFile_writeFile_other _ _ _ _ hg,
    fun hex => length_writeFile_of_exists _ _ _ hex⟩

/-- C8 witness: saving over an existing `alice.json` replaces its content
(the old `created_at`/`last_used` are gone), keeps the store size, and
leaves the unrelated `other.json` untouched. -/
theorem c8_witness :
    (save_session
        [⟨"alice.json", .record ⟨some "alice", some "OLD", none, none,
          some "2020-01-01T00:00:00", some "2020-02-02T00:00:00"⟩⟩,
         ⟨"other.json", .unreadable⟩]
        "2024-01-01T00:00:00" "20240101_000000" "NEW" "alice" none none).1 = true
    ∧ lookupFile
        (save_session
          [⟨"alice.json", .record ⟨some "alice", some "OLD", none, none,
            some "2020-01-01T00:00:00", some "2020-02-02T00:00:00"⟩⟩,
           ⟨"other.json", .unreadable⟩]
          "2024-01-01T00:00:00" "20240101_000000" "NEW" "alice" none none).2
        (saveFilename "alice" "20240101_000000")
      = some (.record ⟨some "alice", some "NEW", none, none,
          some "2024-01-01T00:00:00", none⟩)
    ∧ lookupFile
        (save_session
          [⟨"alice.json", .record ⟨some "alice", some "OLD", none, none,
            some "2020-01-01T00:00:00", some "2020-02-02T00:00:00"⟩⟩,
           ⟨"other.json", .unreadable⟩]
          "2024-01-01T00:00:00" "20240101_000000" "NEW" "alice" none none).2
        "other.json"
      = lookupFile
          [⟨"alice.json", .record ⟨some "alice", some "OLD", none, none,
            some "2020-01-01T00:00:00", some "2020-02-02T00:00:00"⟩⟩,
           ⟨"other.json", .unreadable⟩] "other.json"
    ∧ (save_session
        [⟨"alice.json", .record ⟨some "alice", some "OLD", none, none,
          some "2020-01-01T00:00:00", some "2020-02-02T00:00:00"⟩⟩,
         ⟨"other.json", .unreadable⟩]
        "2024-01-01T00:00:00" "20240101_000000" "NEW" "alice" none none).2.length
      = ([⟨"alice.json", .record ⟨some "alice", some "OLD", none, none,
            some "2020-01-01T00:00:00", some "2020-02-02T00:00:00"⟩⟩,
          ⟨"other.json", .unreadable⟩] : List SFile).length :=
  ⟨(c8_save_overwrites_silently _ "2024-01-01T00:00:00" "20240101_000000" "NEW"
      "alice" none none).1,
    (c8_save_overwrites_silently _ "2024-01-01T00:00:00" "20240101_000000" "NEW"
      "alice" none none).2.1,
    (c8_save_overwrites_silently _ "2024-01-01T00:00:00" "20240101_000000" "NEW"
      "alice" none none).2.2.1 "other.json" (by decide),
    (c8_save_overwrites_silently _ "2024-01-01T00:00:00" "20240101_000000" "NEW"
      "alice" none none).2.2.2 (by decide)⟩

/-- C10: when the resolved file parses but lacks the `session_string` field,
`load_session` returns the failure result `none`, yet the file has already
been rewritten with `last_used` stamped to the load time. -/
theorem c10_failed_load_still_restamps (store : List SFile)
    (t name fn : String) (d : SessionData)
    (h1 : findSessionFile store name = some fn)
    (h2 : lookupFile store fn = some (.record d))
    (h3 : d.session_string = none) :
    load_session store t name
      = (none, writeFile store fn (.record { d with last_used := some t }))
    ∧ lookupFile (load_session store t name).2 fn
      = some (.record { d with last_used := some t }) := by
  have hload : load_session store t name
      = (none, writeFile store fn (.record { d with last_used := some t })) := by
    cases hn : d.name <;> simp [load_session, h1, h2, h3, hn]
  exact ⟨hload, by rw [hload]; exact lookupFile_writeFile_self _ _ _⟩

/-- C10 witness: loading a concrete record without `session_string` fails
but leaves the file restamped. -/
theorem c10_witness :
    load_session
        [⟨"m.json", .record ⟨some "m", none, none, none,
          some "2024-01-01T00:00:00", none⟩⟩] "2024-03-03T00:00:00" "m"
      = (none,
        writeFile
          [⟨"m.json", .record ⟨some "m", none, none, none,
            some "2024-01-01T00:00:00", none⟩⟩] "m.json"
          (.record { (⟨some "m", none, none, none,
            some "2024-01-01T00:00:00", none⟩ : SessionData) with
              last_used := some "2024-03-03T00:00:00" }))
    ∧ lookupFile
        (load_session
          [⟨"m.json", .record ⟨some "m", none, none, none,
            some "2024-01-01T00:00:00", none⟩⟩] "2024-03-03T00:00:00" "m").2
        "m.json"
      = some (.record { (⟨some "m", none, none, none,
          some "2024-01-01T00:00:00", none⟩ : SessionData) with
            last_used := some "2024-03-03T00:00:00" }) :=
  c10_failed_load_still_restamps _ "2024-03-03T00:00:00" "m" "m.json" _
    (by decide) (by decide) (by decide)

theorem append_json_ne_empty (s : String) : s ++ ".json" ≠ "" := by
  intro h
  have hd : (s ++ ".json").data = ("" : String).data := congrArg String.data h
  rw [String.data_append] at hd
  exact absurd (List.append_eq_nil.mp hd).2 (by decide)

/-- C2 counterexample: the claim says the slug "retains exactly the
alphanumeric characters, spaces, hyphens and underscores of name", but the
code additionally strips leading/trailing whitespace — for the name
`" a "` the claimed slug is `" a "`, yet the produced filename is
`"a.json"`, not `" a .json"`. -/
theorem c2_counterexample :
    specSlug " a " = " a "
    ∧ saveFilename " a " "20240101_000000" = "a.json"
    ∧ saveFilename " a " "20240101_000000" ≠ specSlug " a " ++ ".json" := by
  decide

/-- C2 (amended): the filename slug retains exactly the alphanumerics,
spaces, hyphens and underscores of the name and strips every other
character, then additionally trims leading and trailing whitespace; whenever
the trimmed slug is empty (a name of only punctuation, or only whitespace)
the timestamp-derived fallback is substituted, so the produced filename is
never empty and the save succeeds. -/
theorem c2_slug_and_fallback (store : List SFile)
    (nowIso nowCompact tok name : String) (phone notes : Option String) :
    safeNameOf name = pyStrip (specSlug name)
    ∧ (pyStrip (specSlug name) ≠ "" →
        saveFilename name nowCompact = pyStrip (specSlug name) ++ ".json")
    ∧ (pyStrip (specSlug name) = "" →
        saveFilename name nowCompact = "session_" ++ nowCompact ++ ".json")
    ∧ saveFilename name nowCompact ≠ ""
    ∧ (save_session store nowIso nowCompact tok name phone notes).1 = true
    ∧ fileExists (save_session store nowIso nowCompact tok name phone notes).2
        (saveFilename name nowCompact) = true := by
  have hsafe : safeNameOf name = pyStrip (specSlug name) := rfl
  refine ⟨rfl, fun hne => ?_, fun he => ?_, ?_, rfl,
    fileExists_writeFile_self _ _ _⟩
  · simp [saveFilename, hsafe, hne]
  · simp [saveFilename, hsafe, he]
  · exact append_json_ne_empty _

/-- C2 witness: the name `" a "` keeps its trimmed slug, the all-punctuation
name `"!!!"` gets the timestamp fallback, and neither filename is empty. -/
theorem c2_witness :
    (pyStrip (specSlug " a ") ≠ ""
      ∧ saveFilename " a " "20240101_000000" = pyStrip (specSlug " a ") ++ ".json")
    ∧ (pyStrip (specSlug "!!!") = ""
      ∧ saveFilename "!!!" "20240101_000000" = "session_" ++ "20240101_000000" ++ ".json")
    ∧ saveFilename " a " "20240101_000000" ≠ ""
    ∧ (save_session [] "2024-01-01T00:00:00" "20240101_000000" "T" " a " none none).1
        = true :=
  ⟨⟨by decide,
    (c2_slug_and_fallback [] "2024-01-01T00:00:00" "20240101_000000" "T" " a "
      none none).2.1 (by decide)⟩,
   ⟨by decide,
    (c2_slug_and_fallback [] "2024-01-01T00:00:00" "20240101_000000" "T" "!!!"
      none none).2.2.1 (by decide)⟩,
   (c2_slug_and_fallback [] "2024-01-01T00:00:00" "20240101_000000" "T" " a "
      none none).2.2.2.1,
   (c2_slug_and_fallback [] "2024-01-01T00:00:00" "20240101_000000" "T" " a "
      none none).2.2.2.2.1⟩

/-- C3: the resolution order of `_find_session_file`: (a) the exact filename
when the identifier ends in `.json` and that file exists; (b) else
identifier + `.json` when that file exists; (c) else the first record file
whose `name` field equals the identifier; (d) else not-found — and in
particular a literal `identifier.json` file beats a record whose `name`
field matches. -/
theorem c3_resolution_order (store : List SFile) (id : String) :
    ((pyEndsWith id ".json" = true ∧ fileExists store id = true) →
      findSessionFile store id = some id)
    ∧ (¬(pyEndsWith id ".json" = true ∧ fileExists store id = true) →
        fileExists store (id ++ ".json") = true →
        findSessionFile store id = some (id ++ ".json"))
    ∧ (¬(pyEndsWith id ".json" = true ∧ fileExists store id = true) →
        fileExists store (id ++ ".json") = false →
        ∀ pre f post, store = pre ++ f :: post →
          (∀ g ∈ pre, matchesName g id = false) →
          matchesName f id = true →
          findSessionFile store id = some f.fname)
    ∧ (¬(pyEndsWith id ".json" = true ∧ fileExists store id = true) →
        fileExists store (id ++ ".json") = false →
        (∀ f ∈ store, matchesName f id = false) →
        findSessionFile store id = none)
    ∧ (pyEndsWith id ".json" = false →
        fileExists store (id ++ ".json") = true →
        findSessionFile store id = some (id ++ ".json")) := by
  have mkhb : ¬(pyEndsWith id ".json" = true ∧ fileExists store id = true) →
      (pyEndsWith id ".json" && fileExists store id) = false := fun hno => by
    cases hA : pyEndsWith id ".json" <;> cases hB : fileExists store id <;>
      simp_all
  refine ⟨?_, ?_, ?_, ?_, ?_⟩
  · rintro ⟨h1, h2⟩
    simp [findSessionFile, h1, h2]
  · intro hno hex
    simp [findSessionFile, mkhb hno, hex]
  · intro hno hnex pre f post hstore hpre hf
    have hb := mkhb hno
    subst hstore
    simp [findSessionFile, hb, hnex, scanForName_first pre f post id hpre hf]
  · intro hno hnex hall
    simp [findSessionFile, mkhb hno, hnex, scanForName_of_all_miss store id hall]
  · intro hA hex
    simp [findSessionFile, hA, hex]

/-- C3 witness: with both a literal `foo.json` file and an earlier
different-named record whose `name` field is `"foo"`, resolving `"foo"`
returns the literal filename match. -/
theorem c3_witness :
    pyEndsWith "foo" ".json" = false
    ∧ fileExists
        [⟨"bar.json", .record ⟨some "foo", some "t1", none, none, none, none⟩⟩,
         ⟨"foo.json", .record ⟨some "other", some "t2", none, none, none, none⟩⟩]
        ("foo" ++ ".json") = true
    ∧ findSessionFile
        [⟨"bar.json", .record ⟨some "foo", some "t1", none, none, none, none⟩⟩,
         ⟨"foo.json", .record ⟨some "other", some "t2", none, none, none, none⟩⟩]
        "foo" = some ("foo" ++ ".json") :=
  ⟨by decide, by decide,
    (c3_resolution_order
      [⟨"bar.json", .record ⟨some "foo", some "t1", none, none, none, none⟩⟩,
       ⟨"foo.json", .record ⟨some "other", some "t2", none, none, none, none⟩⟩]
      "foo").2.2.2.2 (by decide) (by decide)⟩

/-- C4: both acquisition-flow operations run the connection-release hook
(`client.disconnect()` in the `finally` block) exactly once on every exit
path — success, each caught-error return, and propagating interrupts alike —
and when the remote rejects the submitted code, `create_session` returns the
invalid-code failure result. -/
theorem c4_release_exactly_once (r : RemoteScript) :
    ((create_session_run r).2 = 1 ∧ (test_session_run r).2 = 1)
    ∧ ∀ c, r.codeInput = OperatorInput.text c →
        r.signInCode = SignInResult.err TgError.phoneCodeInvalid →
        create_session_run r = (Except.ok none, 1) := by
  obtain ⟨con, sc, ci, sic, pi, sip, iae, au, gm, ex⟩ := r
  refine ⟨⟨?_, ?_⟩, ?_⟩
  · cases con <;> cases sc <;> cases ci <;> cases sic <;> cases pi <;>
      cases sip <;> cases gm <;> rfl
  · cases con <;> cases iae <;> cases au <;> cases gm <;> rfl
  · intro c hci hsic
    cases hci
    cases hsic
    cases con <;> cases sc <;> rfl

/-- C4 witness: a scripted remote that rejects the submitted code makes
`create_session` return the failure result with the release hook run exactly
once, and `test_session` also releases exactly once. -/
theorem c4_witness :
    create_session_run ⟨none, none, OperatorInput.text "12345",
        SignInResult.err TgError.phoneCodeInvalid, OperatorInput.text "pw",
        none, none, true, none, "EXPORTED"⟩ = (Except.ok none, 1)
    ∧ (test_session_run ⟨none, none, OperatorInput.text "12345",
        SignInResult.err TgError.phoneCodeInvalid, OperatorInput.text "pw",
        none, none, true, none, "EXPORTED"⟩).2 = 1 :=
  ⟨(c4_release_exactly_once _).2 "12345" rfl rfl,
   (c4_release_exactly_once _).1.2⟩

/-- C5: `list_sessions` returns the readable `*.json` records (a permutation
of the per-file reads, so an unreadable file is skipped without aborting)
sorted by the `created_at` key in descending order; a record missing
`created_at` has the empty-string key, which is minimal, so it sorts last. -/
theorem c5_list_sorted_desc (store : List SFile) :
    (list_sessions store).Pairwise
      (fun a b => sessionSortKey b ≤ sessionSortKey a)
    ∧ (list_sessions store).Perm (store.filterMap readListed)
    ∧ (∀ f : SFile, f.content = FileContent.unreadable → readListed f = none)
    ∧ (∀ s, s ∈ list_sessions store → s.data.created_at = none →
        sessionSortKey s = [])
    ∧ (∀ s l : ListedSession, s.data.created_at = none →
        sessionSortKey s ≤ sessionSortKey l) := by
  refine ⟨?_, List.mergeSort_perm _ _, ?_, ?_, ?_⟩
  · have h := @List.sorted_mergeSort ListedSession
      (fun a b => decide (sessionSortKey b ≤ sessionSortKey a))
      (fun a b c hab hbc => by
        simp only [decide_eq_true_eq] at hab hbc ⊢
        exact le_trans hbc hab)
      (fun a b => by
        simp only [Bool.or_eq_true, decide_eq_true_eq]
        exact le_total (sessionSortKey b) (sessionSortKey a))
      (store.filterMap readListed)
    exact h.imp fun hab => by simpa using hab
  · intro f h
    simp [readListed, h]
  · intro s _ h
    unfold sessionSortKey
    rw [h]
    rfl
  · intro s l h
    have h0 : sessionSortKey s = [] := by
      unfold sessionSortKey
      rw [h]
      rfl
    rw [h0]
    exact List.nil_le

/-- C5 witness: a store with one readable record lacking `created_at` and
one unreadable file lists exactly the readable record; its sort key is the
empty string and is ≤ any other key. -/
theorem c5_witness :
    (⟨⟨some "x", some "t", none, none, none, none⟩, "x.json"⟩ : ListedSession)
      ∈ list_sessions
          [⟨"x.json", .record ⟨some "x", some "t", none, none, none, none⟩⟩,
           ⟨"bad.json", .unreadable⟩]
    ∧ sessionSortKey
        (⟨⟨some "x", some "t", none, none, none, none⟩, "x.json"⟩ : ListedSession)
      = []
    ∧ readListed ⟨"bad.json", .unreadable⟩ = none
    ∧ sessionSortKey
        (⟨⟨some "x", some "t", none, none, none, none⟩, "x.json"⟩ : ListedSession)
      ≤ sessionSortKey
        (⟨⟨some "y", some "t", none, none, some "2024", none⟩, "y.json"⟩ : ListedSession) := by
  have hl : list_sessions
      [⟨"x.json", .record ⟨some "x", some "t", none, none, none, none⟩⟩,
       ⟨"bad.json", .unreadable⟩]
      = [⟨⟨some "x", some "t", none, none, none, none⟩, "x.json"⟩] := by
    have hf : List.filterMap readListed
        [⟨"x.json", .record ⟨some "x", some "t", none, none, none, none⟩⟩,
         ⟨"bad.json", FileContent.unreadable⟩]
        = [⟨⟨some "x", some "t", none, none, none, none⟩, "x.json"⟩] := by decide
    rw [list_sessions, hf, List.mergeSort_singleton]
  have hmem : (⟨⟨some "x", some "t", none, none, none, none⟩, "x.json"⟩ : ListedSession)
      ∈ list_sessions
          [⟨"x.json", .record ⟨some "x", some "t", none, none, none, none⟩⟩,
           ⟨"bad.json", .unreadable⟩] := by
    rw [hl]
    exact List.mem_singleton_self _
  exact ⟨hmem,
    (c5_list_sorted_desc _).2.2.2.1 _ hmem rfl,
    (c5_list_sorted_desc
      [⟨"x.json", .record ⟨some "x", some "t", none, none, none, none⟩⟩,
       ⟨"bad.json", .unreadable⟩]).2.2.1 _ rfl,
    (c5_list_sorted_desc
      [⟨"x.json", .record ⟨some "x", some "t", none, none, none, none⟩⟩,
       ⟨"bad.json", .unreadable⟩]).2.2.2.2 _ _ rfl⟩

/-- C7 counterexample: names are not unique — with two record files whose
`name` field is `"foo"`, a successful `delete_session "foo"` removes only
the first, and the subsequent `load_session "foo"` resolves the second and
succeeds instead of yielding not-found. -/
theorem c7_counterexample :
    (delete_session
        [⟨"a.json", .record ⟨some "foo", some "tok1", none, none,
            some "2024-01-01T00:00:00", none⟩⟩,
         ⟨"b.json", .record ⟨some "foo", some "tok2", none, none,
            some "2024-01-02T00:00:00", none⟩⟩] "foo").1 = true
    ∧ (load_session
        (delete_session
          [⟨"a.json", .record ⟨some "foo", some "tok1", none, none,
              some "2024-01-01T00:00:00", none⟩⟩,
           ⟨"b.json", .record ⟨some "foo", some "tok2", none, none,
              some "2024-01-02T00:00:00", none⟩⟩] "foo").2
        "2024-01-03T00:00:00" "foo").1 = some "tok2"
    ∧ some "tok2" ≠ (none : Option String) := by
  decide

/-- C7 (amended): a successful `delete_session name` followed by
`load_session name` yields not-found, provided the deleted file was the only
one matching the identifier (after the delete the name no longer resolves);
with a duplicate `name` field or a suffix-collision the load resolves to the
other file instead. -/
theorem c7_delete_then_load_not_found (store : List SFile) (name t : String)
    (_hdel : (delete_session store name).1 = true)
    (hnone : findSessionFile (delete_session store name).2 name = none) :
    load_session (delete_session store name).2 t name
      = (none, (delete_session store name).2) :=
  load_session_of_find_none _ _ _ hnone

/-- C7 witness: deleting the only record named `"solo"` makes the
subsequent load yield not-found. -/
theorem c7_witness :
    (delete_session
        [⟨"c.json", .record ⟨some "solo", some "tk", none, none,
            some "2024-01-01T00:00:00", none⟩⟩] "solo").1 = true
    ∧ findSessionFile
        (delete_session
          [⟨"c.json", .record ⟨some "solo", some "tk", none, none,
              some "2024-01-01T00:00:00", none⟩⟩] "solo").2 "solo" = none
    ∧ load_session
        (delete_session
          [⟨"c.json", .record ⟨some "solo", some "tk", none, none,
              some "2024-01-01T00:00:00", none⟩⟩] "solo").2
        "2024-02-02T00:00:00" "solo"
      = (none,
        (delete_session
          [⟨"c.json", .record ⟨some "solo", some "tk", none, none,
              some "2024-01-01T00:00:00", none⟩⟩] "solo").2) :=
  ⟨by decide, by decide,
    c7_delete_then_load_not_found _ "solo" "2024-02-02T00:00:00"
      (by decide) (by decide)⟩

/-- C9: every failure arising inside the acquisition flow and the store
operations is caught and converted to a `none` / `false` / empty result: the
flow operations return `Except.ok` on every run whose operator inputs are
not interrupts (an operator interrupt is the only uncaught exit), and every
store-operation failure path returns its designated failure value with the
store unchanged. -/
theorem c9_failures_contained :
    (∀ (r : RemoteScript) (c p : String),
        r.codeInput = OperatorInput.text c →
        r.passwordInput = OperatorInput.text p →
        ∃ o, (create_session_run r).1 = Except.ok o)
    ∧ (∀ r : RemoteScript, ∃ b, (test_session_run r).1 = Except.ok b)
    ∧ (∀ (store : List SFile) (t n : String),
        findSessionFile store n = none → load_session store t n = (none, store))
    ∧ (∀ (store : List SFile) (t n fn : String),
        findSessionFile store n = some fn →
        lookupFile store fn = some FileContent.unreadable →
        load_session store t n = (none, store))
    ∧ (∀ (store : List SFile) (n : String),
        findSessionFile store n = none → delete_session store n = (false, store))
    ∧ (∀ (f : SFile) (store : List SFile), f.content = FileContent.unreadable →
        list_sessions (f :: store) = list_sessions store)
    ∧ (∀ (store : List SFile) (nowIso nowCompact tok name : String)
        (phone notes : Option String),
        (save_session store nowIso nowCompact tok name phone notes).1 = true) := by
  refine ⟨?_, ?_, ?_, ?_, ?_, ?_, fun _ _ _ _ _ _ _ => rfl⟩
  · intro r c p hc hp
    obtain ⟨con, sc, ci, sic, pi, sip, iae, au, gm, ex⟩ := r
    cases ci with
    | interrupt => exact absurd hc (by simp)
    | text s1 =>
      cases pi with
      | interrupt => exact absurd hp (by simp)
      | text s2 =>
        cases con <;> cases sc <;> cases sic <;> cases sip <;> cases gm <;>
          exact ⟨_, rfl⟩
  · intro r
    obtain ⟨con, sc, ci, sic, pi, sip, iae, au, gm, ex⟩ := r
    cases con <;> cases iae <;> cases au <;> cases gm <;> exact ⟨_, rfl⟩
  · intro store t n h
    exact load_session_of_find_none _ _ _ h
  · intro store t n fn h1 h2
    simp [load_session, h1, h2]
  · intro store n h
    simp [delete_session, h]
  · intro f store h
    have hr : readListed f = none := by simp [readListed, h]
    simp [list_sessions, List.filterMap_cons, hr]

/-- C9 witness: concrete error runs — a rejected code still yields an `ok`
result, a failing connect in `test_session` yields `ok false`, and each
store failure path returns its failure value with the store unchanged. -/
theorem c9_witness :
    (∃ o, (create_session_run ⟨none, none, OperatorInput.text "1",
        SignInResult.err TgError.other, OperatorInput.text "p",
        none, none, true, none, "E"⟩).1 = Except.ok o)
    ∧ (∃ b, (test_session_run ⟨some TgError.other, none, OperatorInput.text "1",
        SignInResult.ok, OperatorInput.text "p",
        none, none, true, none, "E"⟩).1 = Except.ok b)
    ∧ load_session [] "T" "ghost" = (none, [])
    ∧ load_session [⟨"u.json", FileContent.unreadable⟩] "T" "u.json"
        = (none, [⟨"u.json", FileContent.unreadable⟩])
    ∧ delete_session [] "ghost" = (false, [])
    ∧ list_sessions [⟨"bad.json", FileContent.unreadable⟩] = list_sessions []
    ∧ (save_session [] "I" "C" "T" "n" none none).1 = true :=
  ⟨c9_failures_contained.1 _ "1" "p" rfl rfl,
   c9_failures_contained.2.1 _,
   c9_failures_contained.2.2.1 [] "T" "ghost" (by decide),
   c9_failures_contained.2.2.2.1 _ "T" "u.json" "u.json" (by decide) (by decide),
   c9_failures_contained.2.2.2.2.1 [] "ghost" (by decide),
   c9_failures_contained.2.2.2.2.2.1 _ [] rfl,
   c9_failures_contained.2.2.2.2.2.2 [] "I" "C" "T" "n" none none⟩

end Veronica
